import Mathlib

/-!
Shallow embedding of `twine/commands/upload.py`, the upload orchestration
engine: the distribution partitioner, the skip-existing response classifier
(`skip_upload`), the status validator (`check_status_code`) and the per-batch
upload loop (`upload`), together with theorems about the specified behaviour.

External collaborators (the repository client, the `PackageFile` loader, the
settings object, the `requests` library) are modelled as explicit data, and
the observable calls of the orchestrator on those collaborators are recorded in an
event trace.  Exceptions are modelled as an explicit `Option FatalError`
result: when the orchestrator would raise, the result carries the error and
the trace stops at the point the exception escapes.
-/

namespace Twine

/-- Does the first character list start with the second one?  Models the
Python `str.startswith` test on the underlying character sequences. -/
def charsStartWith : List Char → List Char → Bool
  | _, [] => true
  | [], _ :: _ => false
  | a :: s, b :: p => a == b && charsStartWith s p

/-- Does `hay` contain `needle` as a contiguous substring?  Models the
Python `needle in hay` membership test on strings. -/
def charsContain (hay needle : List Char) : Bool :=
  charsStartWith hay needle ||
    match hay with
    | [] => false
    | _ :: rest => charsContain rest needle

/-- Python `s.startswith(p)` on strings. -/
def strStartsWith (s p : String) : Bool := charsStartWith s.toList p.toList

/-- Python `needle in hay` on strings. -/
def strContains (hay needle : String) : Bool := charsContain hay.toList needle.toList

/-- Python `s.endswith(suf)` on strings. -/
def strEndsWith (s suf : String) : Bool :=
  charsStartWith s.toList.reverse suf.toList.reverse

/-- Models `os.path.basename`: the part of the path after the last slash. -/
def basename (p : String) : String :=
  String.mk ((p.toList.reverse.takeWhile (fun c => c != '/')).reverse)

/-- The fields of the HTTP response object returned by the repository
client `upload` method that the orchestrator inspects; `location` stands for
`headers["location"]`, read only on the redirect path. -/
structure Response where
  status_code : Nat
  reason : String
  text : String
  url : String
  is_redirect : Bool
  location : String
deriving DecidableEq, Repr

/-- Modelled from the spec: `PackageFile` (from `twine.package`, which is not
under `src/`) carries the filename of the distribution, its basename, its signed
basename (the basename with the `.asc` suffix appended) and an optional
comment. -/
structure PackageFile where
  filename : String
  basefilename : String
  signed_basefilename : String
  comment : Option String
deriving DecidableEq, Repr

/-- Modelled from the spec: `PackageFile.from_filename` loads the package for
one uploadable path; its basename is the final component of the path, and its
signed basename is that basename with `.asc` appended. -/
def PackageFile.from_filename (filename : String) (comment : Option String) :
    PackageFile :=
  ⟨filename, basename filename, basename filename ++ ".asc", comment⟩

/-- The settings consumed by the orchestrator, supplied by the external
`Settings` collaborator.  Field order: `skip_existing`, `sign`, `verbose`,
`sign_with`, `identity`, `comment`, `repository_url` (the last models
`repository_config["repository"]`). -/
structure Settings where
  skip_existing : Bool
  sign : Bool
  verbose : Bool
  sign_with : String
  identity : Option String
  comment : Option String
  repository_url : String
deriving DecidableEq, Repr

/-- One observable effect of the orchestrator: a call on the repository
client (`package_is_uploaded`, `upload`, `release_urls`, `close`), a call on
the signing capability (`add_gpg_signature`, `sign`), or a printed line. -/
inductive Event where
  | packageIsUploaded (filename : String)
  | uploadCall (filename : String)
  | addGpgSignature (signature_path signed_name : String)
  | signCall (sign_with : String) (identity : Option String)
  | releaseUrlsCall (packages : List PackageFile)
  | closeCall
  | printLine (line : String)
deriving DecidableEq, Repr

/-- The fatal exceptions that can escape the orchestrator, named after the
exception classes the source raises: `RedirectDetected` (what the spec calls
`RedirectAnomaly`), `UploadToDeprecatedPyPIDetected` (`DeprecatedEndpoint`),
`InvalidPyPIUploadURL` (`InvalidUploadURL`) and the `requests` `HTTPError`
(`GenericFailure`, carrying status and body). -/
inductive FatalError where
  | redirectDetected (repository_url location : String)
  | uploadToDeprecatedPyPIDetected (message : String)
  | invalidPyPIUploadURL (message : String)
  | httpError (status : Nat) (text : String)
deriving DecidableEq, Repr

/-- The external repository client, modelled by its observable behaviour:
whether it reports a package as already uploaded, the response its `upload`
returns for a package, and the release URLs it returns for the uploaded
packages. -/
structure Repository where
  package_is_uploaded : PackageFile → Bool
  upload_response : PackageFile → Response
  release_urls : List PackageFile → List String

/-- Mirrors `msg_400` in `skip_upload`: the three known already-exists
messages, the first interpolating the basename of the package. -/
def msg_400 (filename : String) : List String :=
  ["A file named \x22" ++ filename ++ "\x22 already exists for",
   "File already exists",
   "Repository does not allow updating assets"]

/-- Mirrors `msg_403` in `skip_upload`. -/
def msg_403 : String := "Not enough permissions to overwrite artifact"

/-- Mirrors `skip_upload`: the skip-existing response classifier.  Note that
`response.reason.startswith(msg_400)` with a tuple argument tests whether the
reason starts with any of the three messages. -/
def skip_upload (response : Response) (skip_existing : Bool)
    (package : PackageFile) : Bool :=
  skip_existing && (response.status_code == 409 ||
    (response.status_code == 400 &&
      (msg_400 package.basefilename).any
        (fun m => strStartsWith response.reason m)) ||
    (response.status_code == 403 && strContains response.text msg_403))

/-- Modelled from the spec: `DEFAULT_REPOSITORY` from `twine.utils` (not
under `src/`), the first of the two canonical modern endpoint URLs. -/
def DEFAULT_REPOSITORY : String := "https://upload.pypi.org/legacy/"

/-- Modelled from the spec: `TEST_REPOSITORY` from `twine.utils` (not under
`src/`), the second of the two canonical modern endpoint URLs. -/
def TEST_REPOSITORY : String := "https://test.pypi.org/legacy/"

/-- The literal part of the 410 guidance before `DEFAULT_REPOSITORY`. -/
def deprecated_message_head : String :=
  "It appears you\x27re uploading to pypi.python.org (or testpypi.python.org). You\x27ve received a 410 error response. Uploading to those sites is deprecated. The new sites are pypi.org and test.pypi.org. Try using "

/-- The literal part of the 410 guidance between the two URLs. -/
def deprecated_message_mid : String := " (or "

/-- The literal part of the 410 guidance after `TEST_REPOSITORY`. -/
def deprecated_message_tail : String :=
  ") to upload your packages instead. These are the default URLs for Twine now. More at https://packaging.python.org/guides/migrating-to-pypi-org/."

/-- The message carried by `UploadToDeprecatedPyPIDetected`, mirroring the
f-string in `check_status_code`. -/
def deprecated_message : String :=
  deprecated_message_head ++ DEFAULT_REPOSITORY ++ deprecated_message_mid
    ++ TEST_REPOSITORY ++ deprecated_message_tail

/-- The literal part of the 405 guidance before `DEFAULT_REPOSITORY`. -/
def invalid_url_message_head : String :=
  "It appears you\x27re trying to upload to pypi.org but have an invalid URL. You probably want one of these two URLs: "

/-- The literal part of the 405 guidance between the two URLs. -/
def invalid_url_message_mid : String := " or "

/-- The literal part of the 405 guidance after `TEST_REPOSITORY`. -/
def invalid_url_message_tail : String := ". Check your --repository-url value."

/-- The message carried by `InvalidPyPIUploadURL`, mirroring the f-string in
`check_status_code`. -/
def invalid_url_message : String :=
  invalid_url_message_head ++ DEFAULT_REPOSITORY ++ invalid_url_message_mid
    ++ TEST_REPOSITORY ++ invalid_url_message_tail

/-- Mirrors `check_status_code`: the status validator.  Returns the lines it
prints together with the exception it raises, if any; `raise_for_status` from
`requests` raises `HTTPError` exactly for status codes in `[400, 600)`. -/
def check_status_code (response : Response) (verbose : Bool) :
    List Event × Option FatalError :=
  if response.status_code == 410 && strContains response.url "pypi.python.org" then
    ([], some (FatalError.uploadToDeprecatedPyPIDetected deprecated_message))
  else if response.status_code == 405 && strContains response.url "pypi.org" then
    ([], some (FatalError.invalidPyPIUploadURL invalid_url_message))
  else if 400 ≤ response.status_code ∧ response.status_code < 600 then
    ((if response.text ≠ "" then
        (if verbose then
          [Event.printLine ("Content received from server:\n" ++ response.text)]
        else
          [Event.printLine "NOTE: Try --verbose to see response content."])
      else []),
     some (FatalError.httpError response.status_code response.text))
  else ([], none)

/-- Look up a key in an association list built like a Python dict
comprehension: a later binding for the same key overrides an earlier one. -/
def lookupLast (m : List (String × String)) (k : String) : Option String :=
  match m with
  | [] => none
  | kv :: rest =>
    match lookupLast rest k with
    | some v => some v
    | none => if kv.1 == k then some kv.2 else none

/-- Mirrors the dict comprehension
`signatures = {os.path.basename(d): d for d in dists if d.endswith(".asc")}`
as the ordered list of its bindings (lookup is last-wins `lookupLast`). -/
def sigEntries (dists : List String) : List (String × String) :=
  (dists.filter (fun d => strEndsWith d ".asc")).map (fun d => (basename d, d))

/-- Mirrors `uploads = [i for i in dists if not i.endswith(".asc")]`. -/
def uploadsOf (dists : List String) : List String :=
  dists.filter (fun d => !(strEndsWith d ".asc"))

/-- Says that `d` is one of the values of the signature map built from
`dists`.  A value can only be bound under its own basename (`sigEntries` keys
every path by its basename), so this single lookup decides value-hood. -/
def isSigValue (dists : List String) (d : String) : Bool :=
  lookupLast (sigEntries dists) (basename d) == some d

/-- Mirrors `skip_message` in the upload loop. -/
def skipMessageFor (package : PackageFile) : String :=
  "  Skipping " ++ package.basefilename ++ " because it appears to already exist"

/-- The signature-resolution step of the loop (lines 116-120 of the source):
a pre-supplied signature from the signature map is attached, else the signing
capability runs when the sign option is set, else nothing happens.  Returns
the calls made on the package/signing collaborators. -/
def signatureEvents (st : Settings) (signatures : List (String × String))
    (package : PackageFile) : List Event :=
  match lookupLast signatures package.signed_basefilename with
  | some sigPath => [Event.addGpgSignature sigPath package.signed_basefilename]
  | none =>
    if st.sign then [Event.signCall st.sign_with st.identity] else []

/-- How one iteration of the upload loop ends: fall through to the next
package without appending (a `continue`), append to the accumulator, or
abort the batch with an exception. -/
inductive StepResult where
  | skipped
  | uploadedOk
  | aborted (err : FatalError)
deriving DecidableEq, Repr

/-- Mirrors the body of the `for filename in uploads` loop (lines 101-140 of
the source): pre-check, signature resolution, upload, redirect guard,
response classifier, status validator.  Returns the events of this iteration
and how the iteration ended. -/
def packageStep (st : Settings) (repository : Repository)
    (signatures : List (String × String)) (repository_url : String)
    (filename : String) : List Event × StepResult :=
  let package := PackageFile.from_filename filename st.comment
  let preEvents :=
    if st.skip_existing then [Event.packageIsUploaded filename] else []
  if st.skip_existing && repository.package_is_uploaded package then
    (preEvents ++ [Event.printLine (skipMessageFor package)], StepResult.skipped)
  else
    let resp := repository.upload_response package
    let evs := preEvents ++ signatureEvents st signatures package
      ++ [Event.uploadCall filename]
    if resp.is_redirect then
      (evs, StepResult.aborted
        (FatalError.redirectDetected repository_url resp.location))
    else if skip_upload resp st.skip_existing package then
      (evs ++ [Event.printLine (skipMessageFor package)], StepResult.skipped)
    else
      match check_status_code resp st.verbose with
      | (prints, some err) => (evs ++ prints, StepResult.aborted err)
      | (prints, none) => (evs ++ prints, StepResult.uploadedOk)

/-- The observable outcome of a batch: the event trace, the exception that
escaped (if any), and the `uploaded_packages` accumulator. -/
structure UploadResult where
  events : List Event
  outcome : Option FatalError
  uploaded : List PackageFile
deriving DecidableEq, Repr

/-- Mirrors the `for filename in uploads` loop itself: on an abort the
exception escapes at once (nothing after the current iteration runs), on a
skip the loop continues, on a success the package is appended to the
accumulator. -/
def uploadLoop (st : Settings) (repository : Repository)
    (signatures : List (String × String)) (repository_url : String) :
    List String → UploadResult
  | [] => ⟨[], none, []⟩
  | filename :: rest =>
    match packageStep st repository signatures repository_url filename with
    | (evs, StepResult.aborted err) => ⟨evs, some err, []⟩
    | (evs, StepResult.skipped) =>
      let r := uploadLoop st repository signatures repository_url rest
      ⟨evs ++ r.events, r.outcome, r.uploaded⟩
    | (evs, StepResult.uploadedOk) =>
      let r := uploadLoop st repository signatures repository_url rest
      ⟨evs ++ r.events, r.outcome,
        PackageFile.from_filename filename st.comment :: r.uploaded⟩

/-- Mirrors `upload` (lines 87-150 of the source), taking `dists` as the list
already returned by the `_find_dists` collaborator: partition, header line,
per-package loop, then — only when the loop completes without an exception —
the `release_urls` query, the `View at:` report and the final
`repository.close()`.  When the loop aborts, the exception propagates and
nothing after the loop runs. -/
def upload (st : Settings) (repository : Repository) (dists : List String) :
    UploadResult :=
  let signatures := sigEntries dists
  let uploads := uploadsOf dists
  let repository_url := st.repository_url
  let header :=
    [Event.printLine ("Uploading distributions to " ++ repository_url)]
  let r := uploadLoop st repository signatures repository_url uploads
  match r.outcome with
  | some err => ⟨header ++ r.events, some err, r.uploaded⟩
  | none =>
    let release_urls := repository.release_urls r.uploaded
    let relEvents :=
      Event.releaseUrlsCall r.uploaded ::
        (if release_urls.isEmpty then []
         else Event.printLine "\nView at:" :: release_urls.map Event.printLine)
    ⟨header ++ r.events ++ relEvents ++ [Event.closeCall], none, r.uploaded⟩

/-- How the iteration for one file would end, looked at in isolation. -/
def stepVerdict (st : Settings) (repository : Repository)
    (signatures : List (String × String)) (repository_url : String)
    (filename : String) : StepResult :=
  (packageStep st repository signatures repository_url filename).2

/-- Does a step result abort the batch? -/
def isAborted : StepResult → Bool
  | StepResult.aborted _ => true
  | _ => false

/-- Is a step result a successful upload? -/
def isSuccess : StepResult → Bool
  | StepResult.uploadedOk => true
  | _ => false

/-! Concrete batches used to instantiate the theorems below.  `Settings`
fields are `skip_existing`, `sign`, `verbose`, `sign_with`, `identity`,
`comment`, `repository_url`; `Response` fields are `status_code`, `reason`,
`text`, `url`, `is_redirect`, `location`; `Repository` fields are
`package_is_uploaded`, `upload_response`, `release_urls`. -/

/-- Settings for the close-on-abort batches: all flags off. -/
def settingsC1 : Settings :=
  ⟨false, false, false, "gpg", none, none, "https://example.org/legacy/"⟩

/-- A repository whose upload always yields a generic 500 failure. -/
def repoC1 : Repository :=
  ⟨fun _ => false,
   fun _ => ⟨500, "Internal Server Error", "boom",
     "https://example.org/legacy/", false, ""⟩,
   fun _ => []⟩

/-- A repository whose upload always succeeds with a 200. -/
def repoC1ok : Repository :=
  ⟨fun _ => false,
   fun _ => ⟨200, "OK", "", "https://example.org/legacy/", false, ""⟩,
   fun _ => []⟩

/-- A 400 response whose reason extends `File already exists` strictly. -/
def respC2 : Response :=
  ⟨400, "File already exists and cannot be replaced", "",
   "https://example.org/legacy/", false, ""⟩

/-- The package of the skip-classifier counterexample. -/
def pkgC2 : PackageFile := PackageFile.from_filename "pkg-1.0.tar.gz" none

/-- Settings for the redirect batch: all flags off. -/
def settingsC3 : Settings :=
  ⟨false, false, false, "gpg", none, none, "https://example.org/legacy/"⟩

/-- A repository whose upload answers with a redirect to a mirror. -/
def repoC3 : Repository :=
  ⟨fun _ => false,
   fun _ => ⟨301, "Moved Permanently", "", "https://example.org/legacy/",
     true, "https://mirror.example/x"⟩,
   fun _ => []⟩

/-- Settings with skip-existing enabled. -/
def settingsC5 : Settings :=
  ⟨true, false, false, "gpg", none, none, "https://example.org/legacy/"⟩

/-- A repository that does not know the package yet but answers 409. -/
def repoC5 : Repository :=
  ⟨fun _ => false,
   fun _ => ⟨409, "Conflict", "", "https://example.org/legacy/", false, ""⟩,
   fun _ => []⟩

/-- Settings with skip-existing enabled, for the pre-check batch. -/
def settingsC6 : Settings :=
  ⟨true, false, false, "gpg", none, none, "https://example.org/legacy/"⟩

/-- A repository that reports every package as already uploaded. -/
def repoC6 : Repository :=
  ⟨fun _ => true,
   fun _ => ⟨200, "OK", "", "https://example.org/legacy/", false, ""⟩,
   fun _ => []⟩

/-- A 410 response from the deprecated legacy host. -/
def respC7 : Response :=
  ⟨410, "Gone", "", "https://pypi.python.org/pypi", false, ""⟩

/-- Settings for the pre-supplied-signature batch: sign disabled. -/
def settingsC8 : Settings :=
  ⟨false, false, false, "gpg", none, none, "https://example.org/legacy/"⟩

/-- A repository whose upload succeeds with a 200. -/
def repoC8 : Repository :=
  ⟨fun _ => false,
   fun _ => ⟨200, "OK", "", "https://example.org/legacy/", false, ""⟩,
   fun _ => []⟩

/-- Settings for the empty-uploads batch. -/
def settingsC9 : Settings :=
  ⟨false, false, false, "gpg", none, none, "https://example.org/legacy/"⟩

/-- A repository for the empty-uploads batch. -/
def repoC9 : Repository :=
  ⟨fun _ => false,
   fun _ => ⟨200, "OK", "", "https://example.org/legacy/", false, ""⟩,
   fun _ => []⟩

/-- A 405 response whose URL contains `pypi.org` only inside the unrelated
host `notpypi.org`. -/
def respC10 : Response :=
  ⟨405, "Method Not Allowed", "", "https://notpypi.org/legacy/", false, ""⟩

/-- `charsStartWith s p` means `p` is a prefix of `s` in the usual
list-append sense. -/
theorem charsStartWith_iff (s p : List Char) :
    charsStartWith s p = true ↔ ∃ t, s = p ++ t := by
  induction p generalizing s with
  | nil =>
    cases s <;> simp [charsStartWith]
  | cons b bs ih =>
    cases s with
    | nil => simp [charsStartWith]
    | cons a as =>
      simp only [charsStartWith, Bool.and_eq_true, beq_iff_eq, ih,
        List.cons_append]
      constructor
      · rintro ⟨rfl, t, rfl⟩
        exact ⟨t, rfl⟩
      · rintro ⟨t, h⟩
        injection h with h1 h2
        exact ⟨h1, t, h2⟩

/-- `charsContain hay needle` means `needle` occurs contiguously in `hay`. -/
theorem charsContain_iff (hay needle : List Char) :
    charsContain hay needle = true ↔ ∃ u v, hay = u ++ needle ++ v := by
  induction hay with
  | nil =>
    simp only [charsContain, Bool.or_eq_true, charsStartWith_iff]
    constructor
    · rintro (⟨t, h⟩ | h)
      · exact ⟨[], t, by simpa using h⟩
      · cases h
    · rintro ⟨u, v, h⟩
      exact Or.inl ⟨v, by
        rcases List.append_eq_nil.mp h.symm with ⟨h1, h2⟩
        rcases List.append_eq_nil.mp h1 with ⟨rfl, rfl⟩
        simpa using h⟩
  | cons c rest ih =>
    simp only [charsContain, Bool.or_eq_true, charsStartWith_iff, ih]
    constructor
    · rintro (⟨t, h⟩ | ⟨u, v, h⟩)
      · exact ⟨[], t, by simpa using h⟩
      · exact ⟨c :: u, v, by simp [h]⟩
    · rintro ⟨u, v, h⟩
      cases u with
      | nil => exact Or.inl ⟨v, by simpa using h⟩
      | cons u0 u' =>
        injection h with h1 h2
        exact Or.inr ⟨u', v, h2⟩

/-- `String.toList` distributes over append. -/
theorem toList_append (a b : String) :
    (a ++ b).toList = a.toList ++ b.toList := by
  simp [String.toList, String.data_append]

/-- A string built around `n` contains `n`. -/
theorem strContains_of_split (s u n v : String) (h : s = u ++ n ++ v) :
    strContains s n = true := by
  rw [strContains, charsContain_iff]
  exact ⟨u.toList, v.toList, by rw [h, toList_append, toList_append]⟩

/-- `strEndsWith s suf` means `suf` is a suffix of `s` in the usual
list-append sense. -/
theorem strEndsWith_iff (s suf : String) :
    strEndsWith s suf = true ↔ ∃ p, s.toList = p ++ suf.toList := by
  rw [strEndsWith, charsStartWith_iff]
  constructor
  · rintro ⟨t, h⟩
    refine ⟨t.reverse, ?_⟩
    have := congrArg List.reverse h
    simpa using this
  · rintro ⟨p, h⟩
    refine ⟨p.reverse, ?_⟩
    rw [h]
    simp

/-- `lookupLast` returns the value of the last binding for the key, i.e.
the first match when searching the reversed list. -/
theorem lookupLast_eq_find? (m : List (String × String)) (k : String) :
    lookupLast m k
      = (m.reverse.find? (fun kv => kv.1 == k)).map Prod.snd := by
  induction m with
  | nil => rfl
  | cons kv rest ih =>
    simp only [lookupLast, ih, List.reverse_cons, List.find?_append]
    cases h : rest.reverse.find? (fun kv => kv.1 == k) with
    | some v => simp [Option.or]
    | none =>
      simp only [Option.or, Option.map]
      cases hk : kv.1 == k <;> simp [List.find?, hk]

/-- The signature map built from `dists` binds `b` to the last `.asc` path
whose basename is `b`. -/
theorem lookupLast_sigEntries (dists : List String) (b : String) :
    lookupLast (sigEntries dists) b
      = dists.reverse.find?
          (fun e => strEndsWith e ".asc" && (basename e == b)) := by
  induction dists with
  | nil => rfl
  | cons d rest ih =>
    simp only [sigEntries, List.filter_cons] at *
    by_cases hq : strEndsWith d ".asc" = true
    · simp only [hq, if_true, List.map_cons, lookupLast, ih,
        List.reverse_cons, List.find?_append]
      cases h : rest.reverse.find?
          (fun e => strEndsWith e ".asc" && (basename e == b)) with
      | some v => simp [Option.or]
      | none =>
        simp only [Option.or]
        cases hk : basename d == b <;> simp [List.find?, hq, hk]
    · simp only [Bool.not_eq_true] at hq
      simp only [hq, Bool.false_eq_true, if_false, ih, List.reverse_cons,
        List.find?_append]
      cases h : rest.reverse.find?
          (fun e => strEndsWith e ".asc" && (basename e == b)) with
      | some v => simp [Option.or]
      | none => simp [Option.or, List.find?, hq]

/-- A negated conjunction of Bool equations gives a false conjunction. -/
theorem bool_and_false (a b : Bool) (h : ¬(a = true ∧ b = true)) :
    (a && b) = false := by
  cases a <;> cases b <;> simp_all

/-- Everything the status validator prints is a printed line. -/
theorem check_status_code_prints (r : Response) (v : Bool) :
    ∀ e ∈ (check_status_code r v).1, ∃ s, e = Event.printLine s := by
  intro e he
  unfold check_status_code at he
  split at he
  · simp at he
  · split at he
    · simp at he
    · split at he
      · simp only at he
        split at he
        · split at he <;> simp_all
        · simp at he
      · simp at he

/-- When the pre-check fires, the iteration for `f` records the check and
the skip line, and ends with a `continue`. -/
theorem packageStep_preskip (st : Settings) (repo : Repository)
    (sigs : List (String × String)) (url f : String)
    (h1 : st.skip_existing = true)
    (h2 : repo.package_is_uploaded (PackageFile.from_filename f st.comment)
            = true) :
    packageStep st repo sigs url f
      = ([Event.packageIsUploaded f,
          Event.printLine (skipMessageFor (PackageFile.from_filename f st.comment))],
         StepResult.skipped) := by
  simp [packageStep, h1, h2]

/-- When the pre-check does not fire, the events of the iteration are the
pre-check call (when the flag is set), the signature-resolution calls, the
upload call, and then only printed lines. -/
theorem packageStep_run_shape (st : Settings) (repo : Repository)
    (sigs : List (String × String)) (url f : String)
    (hand : (st.skip_existing &&
        repo.package_is_uploaded (PackageFile.from_filename f st.comment))
          = false) :
    ∃ tail, (packageStep st repo sigs url f).1
        = (if st.skip_existing then [Event.packageIsUploaded f] else [])
          ++ signatureEvents st sigs (PackageFile.from_filename f st.comment)
          ++ [Event.uploadCall f] ++ tail
      ∧ ∀ e ∈ tail, ∃ s, e = Event.printLine s := by
  unfold packageStep
  simp only [hand, Bool.false_eq_true, if_false]
  split
  · exact ⟨[], by simp, by simp⟩
  · split
    · exact ⟨[Event.printLine (skipMessageFor (PackageFile.from_filename f st.comment))],
        by simp, by simp⟩
    · split
      · next prints err heq =>
        refine ⟨prints, by simp, ?_⟩
        have := check_status_code_prints
          (repo.upload_response (PackageFile.from_filename f st.comment)) st.verbose
        rw [heq] at this
        exact this
      · next prints heq =>
        refine ⟨prints, by simp, ?_⟩
        have := check_status_code_prints
          (repo.upload_response (PackageFile.from_filename f st.comment)) st.verbose
        rw [heq] at this
        exact this

/-- Every event of one loop iteration is a print line, the pre-check call for
this file (only with the flag set), the upload call for this file, or one of
the two signature-resolution calls. -/
theorem packageStep_event_kinds (st : Settings) (repo : Repository)
    (sigs : List (String × String)) (url f : String) :
    ∀ e ∈ (packageStep st repo sigs url f).1,
      (∃ s, e = Event.printLine s)
      ∨ (e = Event.packageIsUploaded f ∧ st.skip_existing = true)
      ∨ e = Event.uploadCall f
      ∨ (∃ p n, e = Event.addGpgSignature p n)
      ∨ (∃ a b, e = Event.signCall a b) := by
  intro e he
  by_cases hand : (st.skip_existing &&
      repo.package_is_uploaded (PackageFile.from_filename f st.comment)) = true
  · rcases Bool.and_eq_true .. |>.mp hand with ⟨h1, h2⟩
    rw [packageStep_preskip st repo sigs url f h1 h2] at he
    simp only [List.mem_cons, List.mem_singleton] at he
    rcases he with rfl | rfl | h
    · exact Or.inr (Or.inl ⟨rfl, h1⟩)
    · exact Or.inl ⟨_, rfl⟩
    · cases h
  · rw [Bool.not_eq_true] at hand
    obtain ⟨tail, hshape, htail⟩ := packageStep_run_shape st repo sigs url f hand
    rw [hshape] at he
    simp only [List.mem_append, List.mem_singleton] at he
    rcases he with ((hpre | hsig) | rfl) | htl
    · split at hpre
      · next h1 =>
        simp only [List.mem_singleton] at hpre
        exact Or.inr (Or.inl ⟨hpre, h1⟩)
      · cases hpre
    · unfold signatureEvents at hsig
      split at hsig
      · simp only [List.mem_singleton] at hsig
        exact Or.inr (Or.inr (Or.inr (Or.inl ⟨_, _, hsig⟩)))
      · split at hsig
        · simp only [List.mem_singleton] at hsig
          exact Or.inr (Or.inr (Or.inr (Or.inr ⟨_, _, hsig⟩)))
        · cases hsig
    · exact Or.inr (Or.inr (Or.inl rfl))
    · exact Or.inl (htail e htl)

/-- The loop never calls `close`. -/
theorem uploadLoop_no_close (st : Settings) (repo : Repository)
    (sigs : List (String × String)) (url : String) (files : List String) :
    Event.closeCall ∉ (uploadLoop st repo sigs url files).events := by
  induction files with
  | nil => simp [uploadLoop]
  | cons f rest ih =>
    intro hmem
    have hkinds := packageStep_event_kinds st repo sigs url f
    cases hstep : packageStep st repo sigs url f with
    | mk evs verdict =>
      rw [hstep] at hkinds
      have hnotin : Event.closeCall ∉ evs := by
        intro hin
        rcases hkinds Event.closeCall hin with ⟨s, h⟩ | ⟨h, _⟩ | h | ⟨p, n, h⟩ | ⟨a, b, h⟩ <;>
          cases h
      cases verdict with
      | aborted err =>
        rw [uploadLoop, hstep] at hmem
        exact hnotin hmem
      | skipped =>
        rw [uploadLoop, hstep] at hmem
        simp only [List.mem_append] at hmem
        rcases hmem with h | h
        · exact hnotin h
        · exact ih h
      | uploadedOk =>
        rw [uploadLoop, hstep] at hmem
        simp only [List.mem_append] at hmem
        rcases hmem with h | h
        · exact hnotin h
        · exact ih h

/-- With skip-existing off, the loop never calls `package_is_uploaded`. -/
theorem uploadLoop_no_piu (st : Settings) (repo : Repository)
    (sigs : List (String × String)) (url : String) (files : List String)
    (hoff : st.skip_existing = false) :
    ∀ g, Event.packageIsUploaded g ∉ (uploadLoop st repo sigs url files).events := by
  induction files with
  | nil => simp [uploadLoop]
  | cons f rest ih =>
    intro g hmem
    have hkinds := packageStep_event_kinds st repo sigs url f
    cases hstep : packageStep st repo sigs url f with
    | mk evs verdict =>
      rw [hstep] at hkinds
      have hnotin : Event.packageIsUploaded g ∉ evs := by
        intro hin
        rcases hkinds _ hin with ⟨s, h⟩ | ⟨h, hflag⟩ | h | ⟨p, n, h⟩ | ⟨a, b, h⟩
        · cases h
        · rw [hflag] at hoff; cases hoff
        · cases h
        · cases h
        · cases h
      cases verdict with
      | aborted err =>
        rw [uploadLoop, hstep] at hmem
        exact hnotin hmem
      | skipped =>
        rw [uploadLoop, hstep] at hmem
        simp only [List.mem_append] at hmem
        rcases hmem with h | h
        · exact hnotin h
        · exact ih g h
      | uploadedOk =>
        rw [uploadLoop, hstep] at hmem
        simp only [List.mem_append] at hmem
        rcases hmem with h | h
        · exact hnotin h
        · exact ih g h

/-- Processing `pre ++ rest` when no file of `pre` aborts: the events and the
accumulator of `pre` are followed by those of `rest`, and the batch outcome
is the outcome of `rest`. -/
theorem uploadLoop_append (st : Settings) (repo : Repository)
    (sigs : List (String × String)) (url : String) (pre rest : List String)
    (hpre : ∀ g ∈ pre, isAborted (stepVerdict st repo sigs url g) = false) :
    uploadLoop st repo sigs url (pre ++ rest)
      = ⟨(uploadLoop st repo sigs url pre).events
            ++ (uploadLoop st repo sigs url rest).events,
         (uploadLoop st repo sigs url rest).outcome,
         (uploadLoop st repo sigs url pre).uploaded
            ++ (uploadLoop st repo sigs url rest).uploaded⟩ := by
  induction pre with
  | nil => simp [uploadLoop]
  | cons g pre ih =>
    have hg := hpre g (by simp)
    have hrest : ∀ x ∈ pre, isAborted (stepVerdict st repo sigs url x) = false :=
      fun x hx => hpre x (by simp [hx])
    cases hstep : packageStep st repo sigs url g with
    | mk evs verdict =>
      cases verdict with
      | aborted err =>
        exfalso
        rw [stepVerdict, hstep] at hg
        simp [isAborted] at hg
      | skipped =>
        rw [List.cons_append, uploadLoop, hstep, ih hrest]
        simp [uploadLoop, hstep, List.append_assoc]
      | uploadedOk =>
        rw [List.cons_append, uploadLoop, hstep, ih hrest]
        simp [uploadLoop, hstep, List.append_assoc]

/-- The 410 guidance names the canonical default endpoint. -/
theorem deprecated_contains_default :
    strContains deprecated_message DEFAULT_REPOSITORY = true :=
  strContains_of_split _ deprecated_message_head DEFAULT_REPOSITORY
    (deprecated_message_mid ++ TEST_REPOSITORY ++ deprecated_message_tail)
    (by simp [deprecated_message, String.append_assoc])

/-- The 410 guidance names the canonical test endpoint. -/
theorem deprecated_contains_test :
    strContains deprecated_message TEST_REPOSITORY = true :=
  strContains_of_split _
    (deprecated_message_head ++ DEFAULT_REPOSITORY ++ deprecated_message_mid)
    TEST_REPOSITORY deprecated_message_tail
    (by simp [deprecated_message, String.append_assoc])

/-- The 405 guidance names the canonical default endpoint. -/
theorem invalid_contains_default :
    strContains invalid_url_message DEFAULT_REPOSITORY = true :=
  strContains_of_split _ invalid_url_message_head DEFAULT_REPOSITORY
    (invalid_url_message_mid ++ TEST_REPOSITORY ++ invalid_url_message_tail)
    (by simp [invalid_url_message, String.append_assoc])

/-- The 405 guidance names the canonical test endpoint. -/
theorem invalid_contains_test :
    strContains invalid_url_message TEST_REPOSITORY = true :=
  strContains_of_split _
    (invalid_url_message_head ++ DEFAULT_REPOSITORY ++ invalid_url_message_mid)
    TEST_REPOSITORY invalid_url_message_tail
    (by simp [invalid_url_message, String.append_assoc])

/-- C2 (counterexample): a 400 response whose reason strictly extends the
modern message `File already exists` is still classified as a skip by
`skip_upload`, although the reason equals neither exact message and does not
start with the legacy basename message — so the claimed decision table
(exact match for the two non-legacy messages) does not describe the code. -/
theorem c2_skip_upload_counterexample :
    respC2.status_code = 400
    ∧ skip_upload respC2 true pkgC2 = true
    ∧ respC2.reason ≠ "File already exists"
    ∧ respC2.reason ≠ "Repository does not allow updating assets"
    ∧ strStartsWith respC2.reason
        ("A file named \x22" ++ pkgC2.basefilename ++ "\x22 already exists for")
      = false := by
  decide

/-- C2 (amended): `skip_upload` returns true iff the skip-existing flag is
set and either the status is 409, or the status is 400 and the reason
starts with one of the three known messages (all three are prefix-matched,
because `str.startswith` receives the whole tuple), or the status is 403 and
the body contains the permissions-denied substring. -/
theorem c2_skip_upload_iff (r : Response) (flag : Bool) (pkg : PackageFile) :
    skip_upload r flag pkg = true ↔
      (flag = true ∧
        (r.status_code = 409
         ∨ (r.status_code = 400 ∧ ∃ m ∈ msg_400 pkg.basefilename,
              ∃ t, r.reason.toList = m.toList ++ t)
         ∨ (r.status_code = 403 ∧
              ∃ u v, r.text.toList = u ++ msg_403.toList ++ v))) := by
  simp only [skip_upload, List.any_eq_true, strStartsWith, charsStartWith_iff,
    strContains, charsContain_iff, Bool.and_eq_true, Bool.or_eq_true,
    beq_iff_eq]
  exact and_congr_right fun _ => or_assoc

/-- C2 (witness): the amended classifier, instantiated at the counterexample
response, exhibits the 400 branch with a strict prefix match. -/
theorem c2_skip_upload_iff_witness :
    true = true ∧
      (respC2.status_code = 409
       ∨ (respC2.status_code = 400 ∧ ∃ m ∈ msg_400 pkgC2.basefilename,
            ∃ t, respC2.reason.toList = m.toList ++ t)
       ∨ (respC2.status_code = 403 ∧
            ∃ u v, respC2.text.toList = u ++ msg_403.toList ++ v)) :=
  (c2_skip_upload_iff respC2 true pkgC2).mp (by decide)

/-- C7: the status validator applies its rules in order — 410 from the
legacy host raises `UploadToDeprecatedPyPIDetected` whose guidance names the
two canonical endpoint URLs; otherwise 405 from the modern host raises
`InvalidPyPIUploadURL` whose guidance names the same two URLs; otherwise the
generic `HTTPError` is raised exactly for statuses in `[400, 600)`;
otherwise nothing is raised. -/
theorem c7_check_status_code (r : Response) (v : Bool) :
    (r.status_code = 410 → strContains r.url "pypi.python.org" = true →
      (check_status_code r v).2
          = some (FatalError.uploadToDeprecatedPyPIDetected deprecated_message)
        ∧ strContains deprecated_message DEFAULT_REPOSITORY = true
        ∧ strContains deprecated_message TEST_REPOSITORY = true)
    ∧ (¬(r.status_code = 410 ∧ strContains r.url "pypi.python.org" = true) →
        r.status_code = 405 → strContains r.url "pypi.org" = true →
        (check_status_code r v).2
            = some (FatalError.invalidPyPIUploadURL invalid_url_message)
          ∧ strContains invalid_url_message DEFAULT_REPOSITORY = true
          ∧ strContains invalid_url_message TEST_REPOSITORY = true)
    ∧ (¬(r.status_code = 410 ∧ strContains r.url "pypi.python.org" = true) →
        ¬(r.status_code = 405 ∧ strContains r.url "pypi.org" = true) →
        ((check_status_code r v).2
            = some (FatalError.httpError r.status_code r.text)
          ↔ (400 ≤ r.status_code ∧ r.status_code < 600)))
    ∧ (¬(r.status_code = 410 ∧ strContains r.url "pypi.python.org" = true) →
        ¬(r.status_code = 405 ∧ strContains r.url "pypi.org" = true) →
        ¬(400 ≤ r.status_code ∧ r.status_code < 600) →
        (check_status_code r v).2 = none) := by
  refine ⟨?_, ?_, ?_, ?_⟩
  · intro hs hc
    refine ⟨?_, deprecated_contains_default, deprecated_contains_test⟩
    simp [check_status_code, hs, hc]
  · intro hn hs hc
    have hg1 : (r.status_code == 410 && strContains r.url "pypi.python.org")
        = false := by
      cases h1 : r.status_code == 410 <;>
        cases h2 : strContains r.url "pypi.python.org" <;> simp_all
    refine ⟨?_, invalid_contains_default, invalid_contains_test⟩
    simp [check_status_code, hg1, hs, hc]
  · intro hn1 hn2
    have hg1 : (r.status_code == 410 && strContains r.url "pypi.python.org")
        = false := by
      cases h1 : r.status_code == 410 <;>
        cases h2 : strContains r.url "pypi.python.org" <;> simp_all
    have hg2 : (r.status_code == 405 && strContains r.url "pypi.org")
        = false := by
      cases h1 : r.status_code == 405 <;>
        cases h2 : strContains r.url "pypi.org" <;> simp_all
    simp only [check_status_code, hg1, Bool.false_eq_true, if_false, hg2]
    split
    · next hcond => simp [hcond]
    · next hcond => simp [hcond]
  · intro hn1 hn2 hn3
    have hg1 : (r.status_code == 410 && strContains r.url "pypi.python.org")
        = false := by
      cases h1 : r.status_code == 410 <;>
        cases h2 : strContains r.url "pypi.python.org" <;> simp_all
    have hg2 : (r.status_code == 405 && strContains r.url "pypi.org")
        = false := by
      cases h1 : r.status_code == 405 <;>
        cases h2 : strContains r.url "pypi.org" <;> simp_all
    simp [check_status_code, hg1, hg2, hn3]

/-- C7 (witness): Scenario D — a 410 from `pypi.python.org` yields the
deprecated-endpoint failure with the canonical guidance. -/
theorem c7_check_status_code_witness :
    (check_status_code respC7 false).2
        = some (FatalError.uploadToDeprecatedPyPIDetected deprecated_message)
    ∧ strContains deprecated_message DEFAULT_REPOSITORY = true
    ∧ strContains deprecated_message TEST_REPOSITORY = true :=
  (c7_check_status_code respC7 false).1 rfl (by decide)

/-- C10: the host detections are substring tests over the whole response
URL (the first conjunct spells out what the substring test means), so a 405
raises `InvalidPyPIUploadURL` whenever `pypi.org` occurs anywhere in the URL
and a 410 raises `UploadToDeprecatedPyPIDetected` whenever `pypi.python.org`
occurs anywhere; a 405 or 410 whose URL lacks the respective substring falls
through to the generic `HTTPError`. -/
theorem c10_substring_detection (r : Response) (v : Bool) :
    (strContains r.url "pypi.org" = true
      ↔ ∃ u w, r.url.toList = u ++ ("pypi.org").toList ++ w)
    ∧ (r.status_code = 405 → strContains r.url "pypi.org" = true →
        (check_status_code r v).2
          = some (FatalError.invalidPyPIUploadURL invalid_url_message))
    ∧ (r.status_code = 410 → strContains r.url "pypi.python.org" = true →
        (check_status_code r v).2
          = some (FatalError.uploadToDeprecatedPyPIDetected deprecated_message))
    ∧ (r.status_code = 410 → strContains r.url "pypi.python.org" = false →
        (check_status_code r v).2
          = some (FatalError.httpError 410 r.text))
    ∧ (r.status_code = 405 → strContains r.url "pypi.org" = false →
        (check_status_code r v).2
          = some (FatalError.httpError 405 r.text)) := by
  refine ⟨by rw [strContains]; exact charsContain_iff _ _, ?_, ?_, ?_, ?_⟩
  · intro hs hc
    simp [check_status_code, hs, hc]
  · intro hs hc
    simp [check_status_code, hs, hc]
  · intro hs hc
    simp [check_status_code, hs, hc]
  · intro hs hc
    simp [check_status_code, hs, hc]

/-- C10 (witness): a 405 whose URL has the unrelated host `notpypi.org`
still contains `pypi.org` as a substring, hence raises
`InvalidPyPIUploadURL`. -/
theorem c10_substring_detection_witness :
    (check_status_code respC10 false).2
      = some (FatalError.invalidPyPIUploadURL invalid_url_message) :=
  (c10_substring_detection respC10 false).2.1 rfl (by decide)

/-- C1 (counterexample): on a batch whose single upload fails with a generic
500 response, the exception escapes the orchestrator and `close` is never
called — the abort exit path does not release the repository client. -/
theorem c1_close_counterexample :
    (upload settingsC1 repoC1 ["a.tar.gz"]).outcome ≠ none
    ∧ Event.closeCall ∉ (upload settingsC1 repoC1 ["a.tar.gz"]).events := by
  decide

/-- C1 (amended): `repository.close()` runs exactly on the normal-completion
exit path — `close` is called if and only if no fatal error escaped the
loop. -/
theorem c1_close_iff (st : Settings) (repo : Repository)
    (dists : List String) :
    Event.closeCall ∈ (upload st repo dists).events
      ↔ (upload st repo dists).outcome = none := by
  simp only [upload]
  cases hout : (uploadLoop st repo (sigEntries dists) st.repository_url
      (uploadsOf dists)).outcome with
  | some err =>
    simp [List.mem_append,
      uploadLoop_no_close st repo (sigEntries dists) st.repository_url
        (uploadsOf dists)]
  | none => simp [List.mem_append]

/-- C1 (witness): on a batch that completes normally, `close` is called. -/
theorem c1_close_iff_witness :
    Event.closeCall ∈ (upload settingsC1 repoC1ok ["a.tar.gz"]).events :=
  (c1_close_iff settingsC1 repoC1ok ["a.tar.gz"]).mpr (by decide)

/-- C4 (counterexample): with two `.asc` paths sharing the basename
`x.asc`, the later path overwrites the earlier binding, so the earlier path
ends with `.asc` yet is not a value of the final signature map — the
claimed "placed in the map iff ends with `.asc`" biconditional fails. -/
theorem c4_partition_counterexample :
    strEndsWith "a/x.asc" ".asc" = true
    ∧ "a/x.asc" ∈ (["a/x.asc", "b/x.asc"] : List String)
    ∧ basename "a/x.asc" = "x.asc"
    ∧ lookupLast (sigEntries ["a/x.asc", "b/x.asc"]) "x.asc" = some "b/x.asc"
    ∧ isSigValue ["a/x.asc", "b/x.asc"] "a/x.asc" = false := by
  decide

/-- C4 (amended): the signature map binds a basename to the last input
`.asc` path with that basename (last-wins, so an overwritten `.asc` path is
not a value); the uploads sequence is exactly the non-`.asc` paths in their
input order (a sublist of the input); `.asc`-suffix membership means suffix
decomposition; and every map value ends with `.asc`, comes from the input,
and is excluded from the uploads sequence. -/
theorem c4_partition_amended (dists : List String) :
    (∀ b, lookupLast (sigEntries dists) b
        = dists.reverse.find?
            (fun e => strEndsWith e ".asc" && (basename e == b)))
    ∧ List.Sublist (uploadsOf dists) dists
    ∧ (∀ d, d ∈ uploadsOf dists ↔ (d ∈ dists ∧ strEndsWith d ".asc" = false))
    ∧ (∀ d, strEndsWith d ".asc" = true
        ↔ ∃ p, d.toList = p ++ (".asc").toList)
    ∧ (∀ k d, lookupLast (sigEntries dists) k = some d →
        strEndsWith d ".asc" = true ∧ d ∈ dists ∧ d ∉ uploadsOf dists) := by
  refine ⟨lookupLast_sigEntries dists, List.filter_sublist dists, ?_, ?_, ?_⟩
  · intro d
    rw [uploadsOf, List.mem_filter]
    simp [Bool.not_eq_true']
  · intro d
    exact strEndsWith_iff d ".asc"
  · intro k d h
    rw [lookupLast_sigEntries] at h
    have hp := List.find?_some h
    have hm := List.mem_of_find?_eq_some h
    rw [List.mem_reverse] at hm
    rw [Bool.and_eq_true] at hp
    refine ⟨hp.1, hm, ?_⟩
    intro hin
    rw [uploadsOf, List.mem_filter] at hin
    rw [hp.1] at hin
    simp at hin

/-- C4 (witness): the surviving binding of the duplicate-basename batch is a
genuine map value, hence excluded from the uploads sequence. -/
theorem c4_partition_amended_witness :
    strEndsWith "b/x.asc" ".asc" = true
    ∧ "b/x.asc" ∈ (["a/x.asc", "b/x.asc"] : List String)
    ∧ "b/x.asc" ∉ uploadsOf ["a/x.asc", "b/x.asc"] :=
  (c4_partition_amended ["a/x.asc", "b/x.asc"]).2.2.2.2 "x.asc" "b/x.asc"
    (by decide)

/-- C9 (counterexample): a batch whose only path is a signature file has an
empty uploads sequence, yet `release_urls` is still called (with the empty
accumulator) — contradicting the claim that no repository-client operation
is invoked. -/
theorem c9_no_uploads_counterexample :
    uploadsOf ["pkg-1.0.tar.gz.asc"] = []
    ∧ Event.releaseUrlsCall []
        ∈ (upload settingsC9 repoC9 ["pkg-1.0.tar.gz.asc"]).events := by
  decide

/-- C9 (amended): when the uploads sequence is empty, no per-package client
operation runs — `package_is_uploaded` and `upload` are never called — but
`release_urls` is still called once with the empty accumulator, and `close`
is called. -/
theorem c9_empty_uploads (st : Settings) (repo : Repository)
    (dists : List String) (h : uploadsOf dists = []) :
    (∀ g, Event.packageIsUploaded g ∉ (upload st repo dists).events)
    ∧ (∀ g, Event.uploadCall g ∉ (upload st repo dists).events)
    ∧ Event.releaseUrlsCall [] ∈ (upload st repo dists).events
    ∧ Event.closeCall ∈ (upload st repo dists).events := by
  simp only [upload, h]
  refine ⟨?_, ?_, ?_, ?_⟩
  · intro g
    simp only [uploadLoop, List.mem_append]
    split <;> simp [List.mem_map]
  · intro g
    simp only [uploadLoop, List.mem_append]
    split <;> simp [List.mem_map]
  · simp only [uploadLoop, List.mem_append]
    split <;> simp
  · simp only [uploadLoop, List.mem_append]
    split <;> simp

/-- When the pre-check does not fire and the response is a redirect, the
iteration aborts with `RedirectDetected` carrying the repository URL and the
redirect target, whatever the status code or messages are. -/
theorem packageStep_redirect (st : Settings) (repo : Repository)
    (sigs : List (String × String)) (url f : String)
    (hand : (st.skip_existing &&
        repo.package_is_uploaded (PackageFile.from_filename f st.comment))
          = false)
    (hred : (repo.upload_response (PackageFile.from_filename f st.comment)).is_redirect
          = true) :
    packageStep st repo sigs url f
      = ((if st.skip_existing then [Event.packageIsUploaded f] else [])
            ++ signatureEvents st sigs (PackageFile.from_filename f st.comment)
            ++ [Event.uploadCall f],
         StepResult.aborted (FatalError.redirectDetected url
           (repo.upload_response (PackageFile.from_filename f st.comment)).location)) := by
  simp [packageStep, hand, hred]

/-- C3: when the loop reaches a package (no earlier file aborts, the
pre-check does not skip it) and its upload response signals a redirect, the
whole batch aborts with `RedirectDetected` carrying the repository URL and
the redirect target — regardless of the status code or message
content of the response, since only `is_redirect` is assumed — and the loop result does
not depend on the packages after it (no subsequent package is attempted). -/
theorem c3_redirect_aborts (st : Settings) (repo : Repository)
    (dists pre post post' : List String) (f : String)
    (hsplit : uploadsOf dists = pre ++ f :: post)
    (hpre : ∀ g ∈ pre,
        isAborted (stepVerdict st repo (sigEntries dists) st.repository_url g)
          = false)
    (hns : ¬(st.skip_existing = true ∧
        repo.package_is_uploaded (PackageFile.from_filename f st.comment)
          = true))
    (hred : (repo.upload_response
        (PackageFile.from_filename f st.comment)).is_redirect = true) :
    (upload st repo dists).outcome
        = some (FatalError.redirectDetected st.repository_url
            (repo.upload_response
              (PackageFile.from_filename f st.comment)).location)
    ∧ uploadLoop st repo (sigEntries dists) st.repository_url
          (pre ++ f :: post)
        = uploadLoop st repo (sigEntries dists) st.repository_url
            (pre ++ f :: post') := by
  have hand := bool_and_false _ _ hns
  have hstep := packageStep_redirect st repo (sigEntries dists)
    st.repository_url f hand hred
  have hloop : ∀ rest,
      uploadLoop st repo (sigEntries dists) st.repository_url (f :: rest)
        = ⟨(if st.skip_existing then [Event.packageIsUploaded f] else [])
              ++ signatureEvents st (sigEntries dists)
                  (PackageFile.from_filename f st.comment)
              ++ [Event.uploadCall f],
           some (FatalError.redirectDetected st.repository_url
             (repo.upload_response
               (PackageFile.from_filename f st.comment)).location),
           []⟩ := by
    intro rest
    rw [uploadLoop, hstep]
  constructor
  · simp only [upload]
    rw [hsplit,
      uploadLoop_append st repo (sigEntries dists) st.repository_url pre
        (f :: post) hpre, hloop post]
  · rw [uploadLoop_append st repo (sigEntries dists) st.repository_url pre
      (f :: post) hpre,
      uploadLoop_append st repo (sigEntries dists) st.repository_url pre
        (f :: post') hpre, hloop post, hloop post']

/-- C3 (witness): Scenario B — a redirect response on the only package
aborts the batch with the repository URL and the mirror target. -/
theorem c3_redirect_aborts_witness :
    (upload settingsC3 repoC3 ["pkg-1.0.tar.gz"]).outcome
      = some (FatalError.redirectDetected "https://example.org/legacy/"
          "https://mirror.example/x") :=
  (c3_redirect_aborts settingsC3 repoC3 ["pkg-1.0.tar.gz"] [] [] ["other.tar.gz"]
    "pkg-1.0.tar.gz" (by decide) (by simp) (by decide) (by decide)).1

/-- C5: the accumulator is exactly the packages of the longest prefix of the
uploads sequence containing no aborting file whose isolated verdict is a
successful upload, in order; and a package whose verdict is a skip leaves
the accumulator empty and raises nothing. -/
theorem c5_uploaded_accumulator (st : Settings) (repo : Repository)
    (sigs : List (String × String)) (url : String) (files : List String) :
    (uploadLoop st repo sigs url files).uploaded
      = ((files.takeWhile
            (fun f => !(isAborted (stepVerdict st repo sigs url f)))).filter
          (fun f => isSuccess (stepVerdict st repo sigs url f))).map
          (fun f => PackageFile.from_filename f st.comment)
    ∧ (∀ f, stepVerdict st repo sigs url f = StepResult.skipped →
        (uploadLoop st repo sigs url [f]).uploaded = []
        ∧ (uploadLoop st repo sigs url [f]).outcome = none) := by
  constructor
  · induction files with
    | nil => simp [uploadLoop]
    | cons f rest ih =>
      cases hstep : packageStep st repo sigs url f with
      | mk evs verdict =>
        have hv : stepVerdict st repo sigs url f = verdict := by
          rw [stepVerdict, hstep]
        cases verdict with
        | aborted err =>
          rw [uploadLoop, hstep]
          simp [List.takeWhile_cons, hv, isAborted]
        | skipped =>
          rw [uploadLoop, hstep]
          simp [List.takeWhile_cons, hv, isAborted, isSuccess,
            List.filter_cons, ih]
        | uploadedOk =>
          rw [uploadLoop, hstep]
          simp [List.takeWhile_cons, hv, isAborted, isSuccess,
            List.filter_cons, ih]
  · intro f hskip
    cases hstep : packageStep st repo sigs url f with
    | mk evs verdict =>
      have hv : verdict = StepResult.skipped := by
        rw [stepVerdict, hstep] at hskip
        exact hskip
      subst hv
      rw [uploadLoop, hstep]
      simp [uploadLoop]

/-- C5 (witness): Scenario A — one package, skip-existing on, 409 response:
the accumulator is empty and no exception is raised. -/
theorem c5_uploaded_accumulator_witness :
    (uploadLoop settingsC5 repoC5 [] "https://example.org/legacy/"
        ["pkg-1.0.tar.gz"]).uploaded = []
    ∧ (uploadLoop settingsC5 repoC5 [] "https://example.org/legacy/"
        ["pkg-1.0.tar.gz"]).outcome = none :=
  (c5_uploaded_accumulator settingsC5 repoC5 [] "https://example.org/legacy/"
    ["pkg-1.0.tar.gz"]).2 "pkg-1.0.tar.gz" (by decide)

/-- With skip-existing off, the orchestrator never calls
`package_is_uploaded`. -/
theorem upload_no_piu (st : Settings) (repo : Repository)
    (dists : List String) (hoff : st.skip_existing = false) (g : String) :
    Event.packageIsUploaded g ∉ (upload st repo dists).events := by
  have hl := uploadLoop_no_piu st repo (sigEntries dists) st.repository_url
    (uploadsOf dists) hoff g
  simp only [upload]
  cases hout : (uploadLoop st repo (sigEntries dists) st.repository_url
      (uploadsOf dists)).outcome with
  | some err => simp [List.mem_append, hl]
  | none =>
    dsimp only
    split <;> simp [List.mem_append, hl, List.mem_map]

/-- C6: with skip-existing on and the client reporting the package as
already uploaded, the iteration records exactly the pre-check call and the
skip line, makes no upload call, and the loop continues with the next
package; with skip-existing on, the pre-check call is always the first event
of an iteration (so it precedes any upload call); with skip-existing off,
`package_is_uploaded` is never called at all. -/
theorem c6_precheck (st : Settings) (repo : Repository)
    (sigs : List (String × String)) (url f : String)
    (rest dists : List String) :
    (st.skip_existing = true →
      repo.package_is_uploaded (PackageFile.from_filename f st.comment)
          = true →
        packageStep st repo sigs url f
            = ([Event.packageIsUploaded f,
                Event.printLine
                  (skipMessageFor (PackageFile.from_filename f st.comment))],
               StepResult.skipped)
        ∧ (∀ g, Event.uploadCall g ∉ (packageStep st repo sigs url f).1)
        ∧ uploadLoop st repo sigs url (f :: rest)
            = ⟨(packageStep st repo sigs url f).1
                  ++ (uploadLoop st repo sigs url rest).events,
               (uploadLoop st repo sigs url rest).outcome,
               (uploadLoop st repo sigs url rest).uploaded⟩)
    ∧ (st.skip_existing = true →
        (packageStep st repo sigs url f).1.head?
          = some (Event.packageIsUploaded f))
    ∧ (st.skip_existing = false →
        ∀ g, Event.packageIsUploaded g ∉ (upload st repo dists).events) := by
  refine ⟨?_, ?_, ?_⟩
  · intro h1 h2
    have hstep := packageStep_preskip st repo sigs url f h1 h2
    refine ⟨hstep, ?_, ?_⟩
    · intro g hmem
      rw [hstep] at hmem
      simp at hmem
    · rw [uploadLoop, hstep]
  · intro h1
    by_cases hand : (st.skip_existing &&
        repo.package_is_uploaded (PackageFile.from_filename f st.comment))
          = true
    · have h2 := (Bool.and_eq_true ..).mp hand |>.2
      rw [packageStep_preskip st repo sigs url f h1 h2]
      rfl
    · rw [Bool.not_eq_true] at hand
      obtain ⟨tail, hshape, htail⟩ := packageStep_run_shape st repo sigs url f hand
      rw [hshape, h1]
      simp
  · intro hoff g
    exact upload_no_piu st repo dists hoff g

/-- C6 (witness): skip-existing on, package already known — the iteration is
exactly the pre-check plus the skip line, with no upload call. -/
theorem c6_precheck_witness :
    packageStep settingsC6 repoC6 [] "https://example.org/legacy/"
        "pkg-1.0.tar.gz"
      = ([Event.packageIsUploaded "pkg-1.0.tar.gz",
          Event.printLine
            (skipMessageFor (PackageFile.from_filename "pkg-1.0.tar.gz" none))],
         StepResult.skipped)
    ∧ Event.uploadCall "pkg-1.0.tar.gz"
        ∉ (packageStep settingsC6 repoC6 [] "https://example.org/legacy/"
            "pkg-1.0.tar.gz").1 := by
  have H := (c6_precheck settingsC6 repoC6 [] "https://example.org/legacy/"
    "pkg-1.0.tar.gz" [] []).1 rfl rfl
  exact ⟨H.1, H.2.1 "pkg-1.0.tar.gz"⟩

/-- C8: signature resolution follows the strict precedence — a pre-supplied
signature from the map is attached and the signing capability is never
invoked (whatever the sign flag is); otherwise the signing capability is
invoked exactly when the sign flag is set; otherwise neither happens. -/
theorem c8_signature_precedence (st : Settings) (repo : Repository)
    (sigs : List (String × String)) (url f : String)
    (hns : ¬(st.skip_existing = true ∧
        repo.package_is_uploaded (PackageFile.from_filename f st.comment)
          = true)) :
    (∀ p, lookupLast sigs
          (PackageFile.from_filename f st.comment).signed_basefilename
        = some p →
        Event.addGpgSignature p
            (PackageFile.from_filename f st.comment).signed_basefilename
          ∈ (packageStep st repo sigs url f).1
        ∧ ∀ a b, Event.signCall a b ∉ (packageStep st repo sigs url f).1)
    ∧ (lookupLast sigs
          (PackageFile.from_filename f st.comment).signed_basefilename
        = none → st.sign = true →
        Event.signCall st.sign_with st.identity
          ∈ (packageStep st repo sigs url f).1
        ∧ ∀ p n, Event.addGpgSignature p n ∉ (packageStep st repo sigs url f).1)
    ∧ (lookupLast sigs
          (PackageFile.from_filename f st.comment).signed_basefilename
        = none → st.sign = false →
        (∀ a b, Event.signCall a b ∉ (packageStep st repo sigs url f).1)
        ∧ ∀ p n, Event.addGpgSignature p n ∉ (packageStep st repo sigs url f).1) := by
  have hand := bool_and_false _ _ hns
  obtain ⟨tail, hshape, htail⟩ := packageStep_run_shape st repo sigs url f hand
  refine ⟨?_, ?_, ?_⟩
  · intro p hp
    constructor
    · rw [hshape]
      simp [List.mem_append, signatureEvents, hp]
    · intro a b hmem
      rw [hshape] at hmem
      simp only [List.mem_append, List.mem_singleton] at hmem
      rcases hmem with ((hp' | hs) | h) | ht
      · split at hp' <;> simp at hp'
      · rw [signatureEvents, hp] at hs
        simp at hs
      · cases h
      · obtain ⟨s, hode⟩ := htail _ ht
        cases hode
  · intro hp hsign
    constructor
    · rw [hshape]
      simp [List.mem_append, signatureEvents, hp, hsign]
    · intro p n hmem
      rw [hshape] at hmem
      simp only [List.mem_append, List.mem_singleton] at hmem
      rcases hmem with ((hp' | hs) | h) | ht
      · split at hp' <;> simp at hp'
      · rw [signatureEvents, hp] at hs
        simp only [hsign, if_true] at hs
        simp at hs
      · cases h
      · obtain ⟨s, hode⟩ := htail _ ht
        cases hode
  · intro hp hsign
    constructor
    · intro a b hmem
      rw [hshape] at hmem
      simp only [List.mem_append, List.mem_singleton] at hmem
      rcases hmem with ((hp' | hs) | h) | ht
      · split at hp' <;> simp at hp'
      · rw [signatureEvents, hp] at hs
        simp only [hsign, Bool.false_eq_true, if_false] at hs
        simp at hs
      · cases h
      · obtain ⟨s, hode⟩ := htail _ ht
        cases hode
    · intro p n hmem
      rw [hshape] at hmem
      simp only [List.mem_append, List.mem_singleton] at hmem
      rcases hmem with ((hp' | hs) | h) | ht
      · split at hp' <;> simp at hp'
      · rw [signatureEvents, hp] at hs
        simp only [hsign, Bool.false_eq_true, if_false] at hs
        simp at hs
      · cases h
      · obtain ⟨s, hode⟩ := htail _ ht
        cases hode

/-- C8 (witness): Scenario C — a pre-supplied `.asc` for the package is
attached and the signing capability is not invoked. -/
theorem c8_signature_precedence_witness :
    Event.addGpgSignature "pkg-1.0.tar.gz.asc"
        (PackageFile.from_filename "pkg-1.0.tar.gz" none).signed_basefilename
      ∈ (packageStep settingsC8 repoC8
          (sigEntries ["pkg-1.0.tar.gz", "pkg-1.0.tar.gz.asc"])
          "https://example.org/legacy/" "pkg-1.0.tar.gz").1
    ∧ Event.signCall "gpg" none
        ∉ (packageStep settingsC8 repoC8
            (sigEntries ["pkg-1.0.tar.gz", "pkg-1.0.tar.gz.asc"])
            "https://example.org/legacy/" "pkg-1.0.tar.gz").1 := by
  have H := (c8_signature_precedence settingsC8 repoC8
    (sigEntries ["pkg-1.0.tar.gz", "pkg-1.0.tar.gz.asc"])
    "https://example.org/legacy/" "pkg-1.0.tar.gz" (by decide)).1
    "pkg-1.0.tar.gz.asc" (by decide)
  exact ⟨H.1, H.2 "gpg" none⟩

/-- C9 (witness): the amended behaviour at the signature-only batch. -/
theorem c9_empty_uploads_witness :
    Event.releaseUrlsCall []
        ∈ (upload settingsC9 repoC9 ["pkg-1.0.tar.gz.asc"]).events
    ∧ Event.closeCall
        ∈ (upload settingsC9 repoC9 ["pkg-1.0.tar.gz.asc"]).events :=
  ⟨(c9_empty_uploads settingsC9 repoC9 ["pkg-1.0.tar.gz.asc"] (by decide)).2.2.1,
   (c9_empty_uploads settingsC9 repoC9 ["pkg-1.0.tar.gz.asc"] (by decide)).2.2.2⟩

end Twine
